import Mathlib

/-!
Verification of the Moonraker connection/request-correlation engine
(`moonraker.py`) against its natural-language specification.

The embedding below translates the relevant parts of the source:

* `JVal` models the JSON values that travel over the Klippy socket.
* `process_command` embeds `Server.process_command` (lines 156-182).
* `on_connection_closed` embeds `Server.on_connection_closed`
  (lines 184-193).
* `subMerge` / `mergeOne` / `mergeSubs` / `make_request` embed the
  subscription-aggregation branch of `Server.make_request`
  (lines 305-330).
* `step` / `run` give a small-step semantics for the interleavings of
  `make_request`, `KlippyConnection.send_request`, message delivery,
  connection closure and reconnection.
* `allocStep` / `allocRun` model the CPython `id` builtin used by
  `BaseRequest.__init__` (`self.id = id(self)`, line 404).
-/

/-- JSON values as produced by `json.loads` on the Klippy socket. -/
inductive JVal where
  | null
  | bool (b : Bool)
  | num (n : Int)
  | str (s : String)
  | arr (elems : List JVal)
  | obj (fields : List (String × JVal))


/-- A decoded message (Python dict) as handed to `process_command`. -/
abbrev JObj := List (String × JVal)

/-- Python truthiness on JSON values: `not result` in the source is true
exactly for `None`, `False`, `0`, `""`, `[]`, `{}`. -/
def jfalsy : JVal → Bool
  | .null => true
  | .bool b => !b
  | .num n => n == 0
  | .str s => s.isEmpty
  | .arr elems => elems.isEmpty
  | .obj fields => fields.isEmpty

/-- Plain dict lookup: `cmd[key]` when present, taking the first binding
(dict keys are unique in any message decoded from JSON). -/
def jget : JObj → String → Option JVal
  | [], _ => none
  | (k, v) :: rest, key => if key = k then some v else jget rest key

/-- `cmd.get(key, None)` followed by an `is not None` test: a key that is
absent or whose value is JSON `null` (Python `None`) both give `none`. -/
def getPy (cmd : JObj) (key : String) : Option JVal :=
  match jget cmd key with
  | some JVal.null => none
  | some v => some v
  | none => none

/-- The value passed to `BaseRequest.notify`: either a payload or a
`ServerError` carrying a message and an HTTP-like status code. -/
inductive Notified where
  | val (v : JVal)
  | serr (msg : JVal) (status : Nat)


/-- `ServerError("Klippy Disconnected", 503)` from `on_connection_closed`. -/
def klippyDisconnected : Notified := .serr (.str "Klippy Disconnected") 503

/-- `ServerError("Klippy Host not connected", 503)` from `send_request`. -/
def hostNotConnected : Notified := .serr (.str "Klippy Host not connected") 503

/-- What `Server.process_command` did with one incoming message. -/
inductive PCOut where
  | dispatched (method : String) (params : JVal)
  | unknownMethod (m : JVal)
  | resolved (reqId : Int) (r : Notified)
  | unmatched (reqId : Option JVal)


/-- `Server.process_command` (lines 156-182).  `methods` is the key set of
`remote_methods`, `pending` the key set of `pending_requests`.  Returns the
new pending set and what happened: a remote-method dispatch, an unknown
method (logged, ignored), a resolved request (popped and notified), or an
unmatched response id (logged, dropped). -/
def process_command (methods : List String) (pending : List Int) (cmd : JObj) :
    List Int × PCOut :=
  match getPy cmd "method" with
  | some m =>
      match m with
      | .str s =>
          if s ∈ methods then
            (pending, .dispatched s (match jget cmd "params" with
              | some v => v
              | none => .obj []))
          else (pending, .unknownMethod m)
      | _ => (pending, .unknownMethod m)
  | none =>
      match getPy cmd "id" with
      | some (.num n) =>
          if n ∈ pending then
            (pending.erase n, .resolved n
              (match jget cmd "result" with
               | some v => .val (if jfalsy v then .str "ok" else v)
               | none => .serr
                   (match jget cmd "error" with
                    | some e => e
                    | none => .str "Malformed Klippy Response") 400))
          else (pending, .unmatched (some (.num n)))
      | other => (pending, .unmatched other)

/-- `BaseRequest.wait` (lines 410-427): once notified, raise the value when
it is a `ServerError`, otherwise return it. -/
def waitOutcome : Notified → Except (JVal × Nat) JVal
  | .val v => .ok v
  | .serr m s => .error (m, s)

/-- A field specification for one object: Python `None` (`none`, the
"all fields" sentinel) or a set of field names. -/
abbrev FieldSpec := Option (Finset String)

/-- `all_subscriptions`: an insertion-ordered dict from object name to
field specification, as an association list. -/
abbrev SubTable := List (String × FieldSpec)

/-- The `objects` mapping of one subscribe request. -/
abbrev SubReq := List (String × FieldSpec)

/-- Dict lookup on the subscription table / request. -/
def tlookup : SubTable → String → Option FieldSpec
  | [], _ => none
  | (o, i) :: t, obj => if obj = o then some i else tlookup t obj

/-- The merge of incoming `items` into an existing entry `pi` (lines
315-319): `None` if either is `None`, else the union `set(pi) | set(items)`. -/
def subMerge : FieldSpec → FieldSpec → FieldSpec
  | _, none => none
  | none, _ => none
  | some pi, some items => some (pi ∪ items)

/-- Merge into an optional previous entry: an object not yet in the table
gets `items` unchanged (line 321), an existing entry is `subMerge`d. -/
def mergeEntry : Option FieldSpec → FieldSpec → FieldSpec
  | none, items => items
  | some pi, items => subMerge pi items

/-- One iteration of the merge loop (lines 312-321): update the entry in
place when the object is already a key, else append it (dict assignment). -/
def mergeOne : SubTable → String → FieldSpec → SubTable
  | [], obj, items => [(obj, items)]
  | (o, pi) :: t, obj, items =>
      if obj = o then (o, subMerge pi items) :: t
      else (o, pi) :: mergeOne t obj items

/-- The whole merge loop over the request's `objects` mapping. -/
def mergeSubs (t : SubTable) (req : SubReq) : SubTable :=
  req.foldl (fun acc p => mergeOne acc p.1 p.2) t

/-- `Server.make_request` (lines 305-330), restricted to its effect on the
subscription state and the outgoing parameters: for `objects/subscribe`
merge the request into the table, send the entire accumulated table as the
`objects` parameter and set `response_template` to route through
`process_status_update`; any other method leaves everything alone.
Returns (new table, outgoing `objects` parameter, `response_template`). -/
def make_request (t : SubTable) (rpc_method : String) (objects : SubReq) :
    SubTable × SubReq × Option String :=
  if rpc_method = "objects/subscribe" then
    (mergeSubs t objects, mergeSubs t objects, some "process_status_update")
  else (t, objects, none)

/-- The Server state touched by the claims: `init_list`, `klippy_state`,
`all_subscriptions`, the key set of `pending_requests`, and a log of every
`notify` call performed so far as (request id, notified value) pairs. -/
structure GState where
  init_list : List String
  klippy_state : String
  all_subscriptions : SubTable
  pending : List Int
  notes : List (Int × Notified)

/-- `Server.on_connection_closed` (lines 184-193): clear `init_list`, set
the state to disconnected, notify every pending request with
`ServerError("Klippy Disconnected", 503)` and clear `pending_requests`.
`all_subscriptions` is not touched by the source. -/
def on_connection_closed (s : GState) : GState :=
  { s with
    init_list := [],
    klippy_state := "disconnected",
    pending := [],
    notes := s.notes ++ s.pending.map (fun n => (n, klippyDisconnected)) }

/-- The two remote methods registered in `Server.__init__`. -/
def builtinMethods : List String :=
  ["process_gcode_response", "process_status_update"]

/-- Machine state: server state plus the in-flight sends spawned by
`make_request` but not yet executed, the connection flag, and the ids ever
handed out (for freshness of new requests). -/
structure MState where
  g : GState
  inflight : List Int
  connected : Bool
  used : List Int

/-- Events of the interleaving semantics. -/
inductive Ev where
  | issue (n : Int) (rpc_method : String) (objects : SubReq)
  | sendOk (n : Int)
  | sendFail (n : Int)
  | deliver (cmd : JObj)
  | disconnect
  | reconnect


/-- One step.  `issue` is `make_request` up to its suspension point: merge
subscriptions, register the fresh request in `pending_requests`, schedule
`send_request`.  `sendOk`/`sendFail` are the two outcomes of
`KlippyConnection.send_request` (lines 383-391): a failed send notifies the
request with the 503 error but does not remove it from `pending_requests`.
`deliver` feeds one decoded message to `process_command`; `disconnect` is
the close callback running `on_connection_closed`; `reconnect` a successful
`connect`. -/
def step (ms : MState) : Ev → Option MState
  | .issue n m objs =>
      if n ∈ ms.used then none
      else
        some { ms with
          g := { ms.g with
            all_subscriptions := (make_request ms.g.all_subscriptions m objs).1,
            pending := ms.g.pending ++ [n] },
          inflight := ms.inflight ++ [n],
          used := ms.used ++ [n] }
  | .sendOk n =>
      if n ∈ ms.inflight then
        if ms.connected then some { ms with inflight := ms.inflight.erase n }
        else none
      else none
  | .sendFail n =>
      if n ∈ ms.inflight then
        some { ms with
          inflight := ms.inflight.erase n,
          g := { ms.g with notes := ms.g.notes ++ [(n, hostNotConnected)] } }
      else none
  | .deliver cmd =>
      if ms.connected then
        some { ms with
          g := { ms.g with
            pending := (process_command builtinMethods ms.g.pending cmd).1,
            notes := ms.g.notes ++
              (match (process_command builtinMethods ms.g.pending cmd).2 with
               | .resolved n r => [(n, r)]
               | _ => []) } }
      else none
  | .disconnect =>
      if ms.connected then
        some { ms with g := on_connection_closed ms.g, connected := false }
      else none
  | .reconnect =>
      if ms.connected then none else some { ms with connected := true }

/-- Run a sequence of events. -/
def run (ms : MState) : List Ev → Option MState
  | [] => some ms
  | e :: evs =>
      match step ms e with
      | some ms' => run ms' evs
      | none => none

/-- The state built by `Server.__init__` (lines 46-69): empty init list,
disconnected, empty subscription table, empty registries. -/
def initState : MState :=
  { g := { init_list := [], klippy_state := "disconnected",
           all_subscriptions := [], pending := [], notes := [] },
    inflight := [], connected := false, used := [] }

/-- A disconnection-class (service-unavailable) notification: exactly the
status-503 errors.  The only 503 notifications in the source are
`ServerError("Klippy Disconnected", 503)` and
`ServerError("Klippy Host not connected", 503)`; response processing only
produces payloads or status-400 errors. -/
def isDisc : Notified → Bool
  | .val _ => false
  | .serr _ s => s == 503

/-- A resolution that is not a disconnection error, i.e. one produced by a
matched backend response. -/
def isResp (r : Notified) : Bool := !isDisc r

/-- All values ever notified to request `n`, in order. -/
def notesFor : List (Int × Notified) → Int → List Notified
  | [], _ => []
  | (m, r) :: rest, n => if m = n then r :: notesFor rest n else notesFor rest n

/-- How many response-type resolutions request `n` has received. -/
def countResp (notes : List (Int × Notified)) (n : Int) : Nat :=
  ((notesFor notes n).filter isResp).length

/-- How many times request `n` was notified at all. -/
def notifCount (notes : List (Int × Notified)) (n : Int) : Nat :=
  (notesFor notes n).length

/-- An event in the life of request objects: creation of object `o` with a
CPython id value `p`, or reclamation of object `o`. -/
inductive AllocEv where
  | create (o : Nat) (p : Int)
  | destroy (o : Nat)

/-- Allocator state: the objects currently alive with their ids, and every
(object, id) pair ever created. -/
structure AllocSt where
  live : List (Nat × Int)
  created : List (Nat × Int)

/-- Model of the CPython `id` builtin as used by `BaseRequest.__init__`
(`self.id = id(self)`, line 404).  The documented guarantee of `id` is
only that the value is unique and constant among objects whose lifetimes
overlap; two objects with non-overlapping lifetimes may share an id.  A
step is valid when a created object is new and its id differs from the id
of every object currently alive; a destroyed object must be alive. -/
def allocStep (st : AllocSt) : AllocEv → Option AllocSt
  | .create o p =>
      if o ∈ st.created.map Prod.fst then none
      else if p ∈ st.live.map Prod.snd then none
      else some { live := st.live ++ [(o, p)], created := st.created ++ [(o, p)] }
  | .destroy o =>
      if o ∈ st.live.map Prod.fst then
        some { st with live := st.live.filter (fun q => q.1 != o) }
      else none

/-- Run a sequence of allocation events. -/
def allocRun (st : AllocSt) : List AllocEv → Option AllocSt
  | [] => some st
  | e :: evs =>
      match allocStep st e with
      | some st' => allocRun st' evs
      | none => none

/-! ### Lemmas about the subscription merge -/

theorem subMerge_none_left (i : FieldSpec) : subMerge none i = none := by
  cases i <;> rfl

theorem subMerge_none_right (i : FieldSpec) : subMerge i none = none := by
  cases i <;> rfl

theorem subMerge_some_some (a b : Finset String) :
    subMerge (some a) (some b) = some (a ∪ b) := rfl

theorem subMerge_comm (a b : FieldSpec) : subMerge a b = subMerge b a := by
  cases a <;> cases b <;> simp [subMerge, Finset.union_comm]

theorem subMerge_assoc (a b c : FieldSpec) :
    subMerge (subMerge a b) c = subMerge a (subMerge b c) := by
  cases a <;> cases b <;> cases c <;> simp [subMerge, Finset.union_assoc]

theorem subMerge_self (a : FieldSpec) : subMerge a a = a := by
  cases a <;> simp [subMerge]

theorem mergeEntry_absorb (old : Option FieldSpec) (i : FieldSpec) :
    mergeEntry (some (mergeEntry old i)) i = mergeEntry old i := by
  cases old with
  | none => simp [mergeEntry, subMerge_self]
  | some pi => simp [mergeEntry, subMerge_assoc, subMerge_self]

theorem mergeEntry_exchange (old : Option FieldSpec) (i j : FieldSpec) :
    mergeEntry (some (mergeEntry old i)) j = mergeEntry (some (mergeEntry old j)) i := by
  cases old with
  | none => simp [mergeEntry, subMerge_comm]
  | some pi =>
      simp only [mergeEntry, subMerge_assoc]
      rw [subMerge_comm i j]

theorem tlookup_mergeOne_self (t : SubTable) (o : String) (i : FieldSpec) :
    tlookup (mergeOne t o i) o = some (mergeEntry (tlookup t o) i) := by
  induction t with
  | nil => simp [mergeOne, tlookup, mergeEntry]
  | cons hd tl ih =>
      obtain ⟨o', pi⟩ := hd
      by_cases h : o = o'
      · subst h
        simp [mergeOne, tlookup, mergeEntry]
      · simp [mergeOne, tlookup, h, ih]

theorem tlookup_mergeOne_other (t : SubTable) (o o' : String) (i : FieldSpec)
    (h : o' ≠ o) : tlookup (mergeOne t o i) o' = tlookup t o' := by
  induction t with
  | nil => simp [mergeOne, tlookup, h]
  | cons hd tl ih =>
      obtain ⟨o'', pi⟩ := hd
      by_cases h2 : o = o''
      · subst h2
        simp [mergeOne, tlookup, h]
      · by_cases h3 : o' = o''
        · subst h3
          simp [mergeOne, tlookup, h2]
        · simp [mergeOne, tlookup, h2, h3, ih]

theorem mergeSubs_cons (t : SubTable) (o : String) (i : FieldSpec) (r : SubReq) :
    mergeSubs t ((o, i) :: r) = mergeSubs (mergeOne t o i) r := rfl

theorem mergeSubs_allFields (t : SubTable) (r : SubReq) (o : String)
    (h : tlookup t o = some none) : tlookup (mergeSubs t r) o = some none := by
  induction r generalizing t with
  | nil => exact h
  | cons p r ih =>
      obtain ⟨o', i⟩ := p
      rw [mergeSubs_cons]
      apply ih
      by_cases ho : o = o'
      · subst ho
        rw [tlookup_mergeOne_self, h]
        simp [mergeEntry, subMerge_none_left]
      · rw [tlookup_mergeOne_other _ _ _ _ ho, h]

theorem not_mem_keys_tlookup (r : SubTable) (o : String)
    (h : o ∉ r.map Prod.fst) : tlookup r o = none := by
  induction r with
  | nil => rfl
  | cons p r ih =>
      obtain ⟨o', i⟩ := p
      simp only [List.map_cons, List.mem_cons, not_or] at h
      simp [tlookup, h.1, ih h.2]

theorem tlookup_mergeSubs_eq (t : SubTable) (r : SubReq) (o : String)
    (hnd : (r.map Prod.fst).Nodup) :
    tlookup (mergeSubs t r) o =
      match tlookup r o with
      | none => tlookup t o
      | some i => some (mergeEntry (tlookup t o) i) := by
  induction r generalizing t with
  | nil => simp [mergeSubs, tlookup]
  | cons p r ih =>
      obtain ⟨o', i'⟩ := p
      simp only [List.map_cons, List.nodup_cons] at hnd
      obtain ⟨hno, hnd'⟩ := hnd
      rw [mergeSubs_cons, ih _ hnd']
      by_cases h : o = o'
      · subst h
        rw [not_mem_keys_tlookup r o hno]
        simp [tlookup, tlookup_mergeOne_self]
      · have hr : tlookup ((o', i') :: r) o = tlookup r o := by
          simp [tlookup, h]
        rw [hr, tlookup_mergeOne_other _ _ _ _ h]

theorem mem_keys_tlookup_isSome (t : SubTable) (o : String) :
    o ∈ t.map Prod.fst → (tlookup t o).isSome := by
  induction t with
  | nil => intro h; simp at h
  | cons p t ih =>
      intro h
      obtain ⟨o', i⟩ := p
      rw [List.map_cons] at h
      rcases List.mem_cons.mp h with heq | hmem
      · subst heq
        simp [tlookup]
      · by_cases ho : o = o'
        · subst ho; simp [tlookup]
        · simpa [tlookup, ho] using ih hmem

theorem tlookup_mergeSubs_isSome (t : SubTable) (r : SubReq) (o : String)
    (h : (tlookup t o).isSome) : (tlookup (mergeSubs t r) o).isSome := by
  induction r generalizing t with
  | nil => exact h
  | cons p r ih =>
      obtain ⟨o', i⟩ := p
      rw [mergeSubs_cons]
      apply ih
      by_cases ho : o = o'
      · subst ho
        rw [tlookup_mergeOne_self]
        simp
      · rw [tlookup_mergeOne_other _ _ _ _ ho]
        exact h

theorem tlookup_mergeSubs_key_mem (t : SubTable) (r : SubReq) (o : String) :
    o ∈ r.map Prod.fst → (tlookup (mergeSubs t r) o).isSome := by
  induction r generalizing t with
  | nil => intro h; simp at h
  | cons p r ih =>
      intro h
      obtain ⟨o', i⟩ := p
      rw [List.map_cons] at h
      rw [mergeSubs_cons]
      rcases List.mem_cons.mp h with heq | hmem
      · subst heq
        apply tlookup_mergeSubs_isSome
        rw [tlookup_mergeOne_self]
        simp
      · exact ih _ hmem

/-- C1: in `make_request`, the per-object subscription merge is union on
field sets with "all fields" (`None`) absorbing: two field sets merge to
their union and never an intersection; an object recorded as "all fields"
is never narrowed by any later merge; merging "all fields" with anything
yields "all fields"; and — as an operation on the accumulated table viewed
as a mapping — merging is idempotent, commutative, and associative. -/
theorem c1_subscription_merge_algebra :
    (∀ a b : Finset String, subMerge (some a) (some b) = some (a ∪ b)) ∧
    (∀ i : FieldSpec, subMerge none i = none ∧ subMerge i none = none) ∧
    (∀ (t : SubTable) (r : SubReq) (o : String), tlookup t o = some none →
        tlookup (mergeSubs t r) o = some none) ∧
    (∀ (t : SubTable) (r : SubReq) (o : String), (r.map Prod.fst).Nodup →
        tlookup (mergeSubs (mergeSubs t r) r) o = tlookup (mergeSubs t r) o) ∧
    (∀ (t : SubTable) (r1 r2 : SubReq) (o : String),
        (r1.map Prod.fst).Nodup → (r2.map Prod.fst).Nodup →
        tlookup (mergeSubs (mergeSubs t r1) r2) o
          = tlookup (mergeSubs (mergeSubs t r2) r1) o) ∧
    (∀ a b c : FieldSpec, subMerge (subMerge a b) c = subMerge a (subMerge b c)) ∧
    (∀ a b : FieldSpec, subMerge a b = subMerge b a) := by
  refine ⟨subMerge_some_some, fun i => ⟨subMerge_none_left i, subMerge_none_right i⟩,
    mergeSubs_allFields, ?_, ?_, subMerge_assoc, subMerge_comm⟩
  · intro t r o h
    rw [tlookup_mergeSubs_eq _ _ _ h, tlookup_mergeSubs_eq _ _ _ h]
    cases hr : tlookup r o with
    | none => rfl
    | some i => simp [mergeEntry_absorb]
  · intro t r1 r2 o h1 h2
    rw [tlookup_mergeSubs_eq _ _ _ h2, tlookup_mergeSubs_eq _ _ _ h1,
      tlookup_mergeSubs_eq _ _ _ h1, tlookup_mergeSubs_eq _ _ _ h2]
    cases hr1 : tlookup r1 o with
    | none => cases hr2 : tlookup r2 o <;> rfl
    | some i1 =>
        cases hr2 : tlookup r2 o with
        | none => rfl
        | some i2 => simp [mergeEntry_exchange]

/-- Witness for C1 at concrete inputs: two one-object requests for the
same object merge commutatively and idempotently (spec scenario 2). -/
theorem c1_witness :
    tlookup (mergeSubs (mergeSubs [("A", some {"x"})] [("A", some {"y"})])
        [("A", some {"y"})]) "A"
      = tlookup (mergeSubs [("A", some {"x"})] [("A", some {"y"})]) "A" ∧
    tlookup (mergeSubs (mergeSubs [] [("A", some {"x"})]) [("A", some {"y"})]) "A"
      = tlookup (mergeSubs (mergeSubs [] [("A", some {"y"})]) [("A", some {"x"})]) "A" :=
  ⟨c1_subscription_merge_algebra.2.2.2.1 _ _ _ (by simp),
   c1_subscription_merge_algebra.2.2.2.2.1 _ _ _ _ (by simp) (by simp)⟩

/-- C5: when `make_request` is called with the subscribe method, after
merging, the outgoing `objects` parameter is the entire accumulated
subscription table — it covers every previously subscribed object and every
newly requested one, not just the new ones — and the fixed
`response_template` routing through `process_status_update` is added. -/
theorem c5_subscribe_rewrite (t : SubTable) (req : SubReq) (m : String)
    (hm : m = "objects/subscribe") :
    (make_request t m req).2.1 = (make_request t m req).1 ∧
    (make_request t m req).1 = mergeSubs t req ∧
    (make_request t m req).2.2 = some "process_status_update" ∧
    (∀ o, o ∈ t.map Prod.fst → (tlookup (make_request t m req).2.1 o).isSome) ∧
    (∀ o, o ∈ req.map Prod.fst → (tlookup (make_request t m req).2.1 o).isSome) := by
  subst hm
  simp only [make_request, if_pos rfl]
  refine ⟨rfl, rfl, rfl, ?_, ?_⟩
  · intro o ho
    exact tlookup_mergeSubs_isSome _ _ _ (mem_keys_tlookup_isSome _ _ ho)
  · intro o ho
    exact tlookup_mergeSubs_key_mem _ _ _ ho

/-- Witness for C5: a subscribe for object "B" on a table already holding
"A" sends both "A" and "B" upstream, with the fixed response template. -/
theorem c5_witness :
    (make_request [("A", some {"x"})] "objects/subscribe" [("B", none)]).2.2
      = some "process_status_update" ∧
    (tlookup (make_request [("A", some {"x"})] "objects/subscribe"
        [("B", none)]).2.1 "A").isSome ∧
    (tlookup (make_request [("A", some {"x"})] "objects/subscribe"
        [("B", none)]).2.1 "B").isSome :=
  ⟨(c5_subscribe_rewrite _ _ _ rfl).2.2.1,
   (c5_subscribe_rewrite [("A", some {"x"})] [("B", none)] _ rfl).2.2.2.1 "A" (by simp),
   (c5_subscribe_rewrite [("A", some {"x"})] [("B", none)] _ rfl).2.2.2.2 "B" (by simp)⟩

/-- C9 is false on the code: subscribing object "B" with an *empty* field
specification records the empty field set, not the "all fields" sentinel —
only `None` (absent/null) is treated as "all fields" (`items is None`,
line 315). -/
theorem c9_counterexample :
    (make_request [] "objects/subscribe" [("B", some ∅)]).1 = [("B", some ∅)] ∧
    tlookup (make_request [] "objects/subscribe" [("B", some ∅)]).1 "B"
      = some (some ∅) ∧
    (some (∅ : Finset String) : FieldSpec) ≠ (none : FieldSpec) := by
  refine ⟨rfl, rfl, by simp⟩

/-- C9 amended: only a null (`None`) field specification is the all-fields
sentinel; an empty field specification is recorded as the empty field set,
distinct from all-fields, and merges as an ordinary (neutral) field set. -/
theorem c9_amended :
    (∀ o : String, mergeSubs [] [(o, none)] = [(o, none)]) ∧
    (∀ o : String, mergeSubs [] [(o, some ∅)] = [(o, some ∅)]) ∧
    (∀ a : Finset String, subMerge (some a) (some ∅) = some a) ∧
    (∀ i : FieldSpec, subMerge none i = none) := by
  refine ⟨fun o => rfl, fun o => rfl, fun a => ?_, subMerge_none_left⟩
  simp [subMerge]

/-! ### Response processing (`process_command`) -/

/-- C7: a response carrying a pending request's id whose `result` payload
is falsy resolves the request with the literal success marker "ok"; a
truthy `result` is passed through unchanged. -/
theorem c7_falsy_result_normalized (methods : List String) (pending : List Int)
    (cmd : JObj) (n : Int) (v : JVal)
    (hm : getPy cmd "method" = none)
    (hid : getPy cmd "id" = some (.num n))
    (hp : n ∈ pending)
    (hr : jget cmd "result" = some v) :
    process_command methods pending cmd
      = (pending.erase n, .resolved n (.val (if jfalsy v then .str "ok" else v))) ∧
    (jfalsy v = true →
      process_command methods pending cmd
        = (pending.erase n, .resolved n (.val (.str "ok")))) ∧
    (jfalsy v = false →
      process_command methods pending cmd
        = (pending.erase n, .resolved n (.val v))) := by
  have hmain : process_command methods pending cmd
      = (pending.erase n, .resolved n (.val (if jfalsy v then .str "ok" else v))) := by
    simp [process_command, hm, hid, hp, hr]
  refine ⟨hmain, ?_, ?_⟩ <;> intro hf <;> rw [hmain] <;> simp [hf]

/-- Witness for C7 (spec scenario 4): a response with an empty-object
result resolves the pending request with the marker "ok". -/
theorem c7_witness :
    process_command [] [5] [("id", .num 5), ("result", .obj [])]
      = ([], .resolved 5 (.val (.str "ok"))) := by
  have h := c7_falsy_result_normalized [] [5]
    [("id", JVal.num 5), ("result", JVal.obj [])] 5 (JVal.obj [])
    rfl rfl (by simp) rfl
  simpa using h.2.1 rfl

/-- C8: a response carrying a pending request's id and an `error` field
(and, per the wire protocol, no `result` field) resolves the request with
a `ServerError` carrying the backend message verbatim and status 400,
which `BaseRequest.wait` raises to the caller of `make_request`. -/
theorem c8_error_response (methods : List String) (pending : List Int)
    (cmd : JObj) (n : Int) (e : JVal)
    (hm : getPy cmd "method" = none)
    (hid : getPy cmd "id" = some (.num n))
    (hp : n ∈ pending)
    (hr : jget cmd "result" = none)
    (he : jget cmd "error" = some e) :
    process_command methods pending cmd
      = (pending.erase n, .resolved n (.serr e 400)) ∧
    waitOutcome (.serr e 400) = .error (e, 400) := by
  constructor
  · simp [process_command, hm, hid, hp, hr, he]
  · rfl

/-- Witness for C8: a concrete error response resolves with the backend's
message and status 400, surfaced as a failed outcome. -/
theorem c8_witness :
    process_command [] [7] [("id", .num 7), ("error", .str "boom")]
      = ([], .resolved 7 (.serr (.str "boom") 400)) ∧
    waitOutcome (.serr (.str "boom") 400) = .error (.str "boom", 400) := by
  have h := c8_error_response [] [7] [("id", JVal.num 7), ("error", JVal.str "boom")]
    7 (JVal.str "boom") rfl rfl (by simp) rfl rfl
  exact ⟨by simpa using h.1, h.2⟩

/-- `process_command` handled the message as a notification: it either
dispatched a registered remote method or logged an unknown one. -/
def isNotifDispatch : PCOut → Bool
  | .dispatched _ _ => true
  | .unknownMethod _ => true
  | _ => false

/-- C10 is false as stated: a message that contains both a `method` field
and an `id` field is treated as a response when the `method` value is
JSON null (`cmd.get('method', None)` is `None`), so it can resolve a
tracked request — here it pops and resolves pending request 1. -/
theorem c10_counterexample :
    process_command builtinMethods [1] [("method", JVal.null), ("id", JVal.num 1)]
      = ([], .resolved 1 (.serr (.str "Malformed Klippy Response") 400)) := by
  rfl

/-- C10 amended: a message whose `method` field is present with a non-null
value is dispatched solely as a notification — looked up in the
remote-method table, dispatched or logged as unknown — and the pending
registry is left untouched, so it never resolves a tracked request, even
when an `id` field is also present. -/
theorem c10_method_messages_are_notifications (methods : List String)
    (pending : List Int) (cmd : JObj) (m : JVal)
    (hm : jget cmd "method" = some m) (hnn : m ≠ JVal.null) :
    (process_command methods pending cmd).1 = pending ∧
    isNotifDispatch (process_command methods pending cmd).2 = true := by
  have hg : getPy cmd "method" = some m := by
    unfold getPy
    rw [hm]
    cases m <;> first | exact absurd rfl hnn | rfl
  rcases m with _ | b | k | s | el | fl
  · exact absurd rfl hnn
  · simp [process_command, hg, isNotifDispatch]
  · simp [process_command, hg, isNotifDispatch]
  · by_cases hs : s ∈ methods <;> simp [process_command, hg, hs, isNotifDispatch]
  · simp [process_command, hg, isNotifDispatch]
  · simp [process_command, hg, isNotifDispatch]

/-- Witness for the amended C10: a status-update notification that also
carries an id leaves the pending registry untouched. -/
theorem c10_witness :
    (process_command builtinMethods [1]
      [("method", .str "process_status_update"), ("id", .num 1)]).1 = [1] ∧
    isNotifDispatch (process_command builtinMethods [1]
      [("method", .str "process_status_update"), ("id", .num 1)]).2 = true :=
  c10_method_messages_are_notifications builtinMethods [1]
    [("method", .str "process_status_update"), ("id", .num 1)]
    (.str "process_status_update") rfl (by simp)

/-! ### Connection closure -/

theorem notesFor_append (a b : List (Int × Notified)) (n : Int) :
    notesFor (a ++ b) n = notesFor a n ++ notesFor b n := by
  induction a with
  | nil => rfl
  | cons p a ih =>
      obtain ⟨m, r⟩ := p
      by_cases h : m = n <;> simp [notesFor, h, ih]

theorem notesFor_map_const (l : List Int) (c : Notified) (n : Int) :
    notesFor (l.map (fun m => (m, c))) n = List.replicate (l.count n) c := by
  induction l with
  | nil => rfl
  | cons m l ih =>
      by_cases h : m = n
      · subst h
        simp [notesFor, ih, List.count_cons, List.replicate_succ]
      · have : ¬(n == m) = true := by simpa using fun hnm => h hnm.symm
        simp [notesFor, h, ih, List.count_cons, this]

/-- C2 is false on the code: `on_connection_closed` never resets
`all_subscriptions`.  Concretely: issue a subscription for "webhooks"
while disconnected, connect, disconnect, reconnect — at the start of the
new connection epoch the ReadinessChecklist is empty but the
SubscriptionTable still holds the prior epoch's "webhooks" entry. -/
theorem c2_counterexample :
    run initState [.issue 1 "objects/subscribe" [("webhooks", none)], .reconnect,
        .disconnect, .reconnect]
      = some ⟨⟨[], "disconnected", [("webhooks", none)], [], [(1, klippyDisconnected)]⟩,
          [1], true, [1]⟩ ∧
    [("webhooks", (none : FieldSpec))] ≠ ([] : SubTable) := by
  exact ⟨rfl, by simp⟩

/-- C2 amended: on backend disconnection the ReadinessChecklist
(`init_list`) and the pending-request registry are cleared, but the
SubscriptionTable (`all_subscriptions`) is left untouched and persists
into the next connection epoch. -/
theorem c2_disconnect_clears_checklist_not_subscriptions (s : GState) :
    (on_connection_closed s).init_list = [] ∧
    (on_connection_closed s).pending = [] ∧
    (on_connection_closed s).klippy_state = "disconnected" ∧
    (on_connection_closed s).all_subscriptions = s.all_subscriptions :=
  ⟨rfl, rfl, rfl, rfl⟩

/-- C4: on connection closure every still-pending request is notified
exactly once, with `ServerError("Klippy Disconnected", 503)` — the
service-unavailable class — requests not in the registry receive nothing,
and the pending registry is empty immediately afterwards. -/
theorem c4_disconnect_resolves_pending (s : GState) (hnd : s.pending.Nodup) :
    (on_connection_closed s).pending = [] ∧
    (∀ n ∈ s.pending,
      notesFor (on_connection_closed s).notes n
        = notesFor s.notes n ++ [Notified.serr (.str "Klippy Disconnected") 503]) ∧
    (∀ n, n ∉ s.pending →
      notesFor (on_connection_closed s).notes n = notesFor s.notes n) := by
  refine ⟨rfl, ?_, ?_⟩
  · intro n hn
    show notesFor (s.notes ++ s.pending.map (fun m => (m, klippyDisconnected))) n = _
    rw [notesFor_append, notesFor_map_const, List.count_eq_one_of_mem hnd hn]
    rfl
  · intro n hn
    show notesFor (s.notes ++ s.pending.map (fun m => (m, klippyDisconnected))) n = _
    rw [notesFor_append, notesFor_map_const, List.count_eq_zero_of_not_mem hn]
    simp

/-- Witness for C4: closing with requests 4 and 9 pending notifies request
4 exactly once with the 503 error and empties the registry. -/
theorem c4_witness :
    (on_connection_closed ⟨["klippy_ready"], "ready", [], [4, 9], []⟩).pending = [] ∧
    notesFor (on_connection_closed
        ⟨["klippy_ready"], "ready", [], [4, 9], []⟩).notes 4
      = notesFor ([] : List (Int × Notified)) 4
          ++ [Notified.serr (.str "Klippy Disconnected") 503] :=
  have h := c4_disconnect_resolves_pending
    ⟨["klippy_ready"], "ready", [], [4, 9], []⟩ (by simp)
  ⟨h.1, h.2.1 4 (by simp)⟩

/-! ### Request identity (`self.id = id(self)`) -/

/-- C6 is false on the code: `BaseRequest` ids come from `id(self)`, which
CPython only guarantees unique among objects with overlapping lifetimes.
A valid execution creates request 0 with id 100, reclaims it, then creates
request 1 with the same id 100 — two distinct requests share an id — and
another valid execution hands out id 9 then id 3, so ids are not
monotonically increasing either. -/
theorem c6_counterexample :
    (allocRun ⟨[], []⟩ [.create 0 100, .destroy 0, .create 1 100]).map AllocSt.created
      = some [(0, 100), (1, 100)] ∧
    (allocRun ⟨[], []⟩ [.create 0 9, .destroy 0, .create 1 3]).map AllocSt.created
      = some [(0, 9), (1, 3)] ∧
    (0 : Nat) ≠ 1 := by
  exact ⟨rfl, rfl, by simp⟩

theorem allocStep_snd_nodup {st st' : AllocSt}
    (h : (st.live.map Prod.snd).Nodup) {e : AllocEv}
    (hs : allocStep st e = some st') : (st'.live.map Prod.snd).Nodup := by
  cases e with
  | create o p =>
      by_cases h1 : o ∈ st.created.map Prod.fst
      · simp [allocStep, h1] at hs
      · by_cases h2 : p ∈ st.live.map Prod.snd
        · simp [allocStep, h1, h2] at hs
        · simp only [allocStep, h1, h2, if_false, if_neg] at hs
          injection hs with hs
          subst hs
          simp only [List.map_append, List.map_cons, List.map_nil]
          rw [List.nodup_append]
          exact ⟨h, List.nodup_singleton p, by simpa using h2⟩
  | destroy o =>
      by_cases h1 : o ∈ st.live.map Prod.fst
      · simp only [allocStep, h1, if_true, if_pos] at hs
        injection hs with hs
        subst hs
        exact List.Nodup.sublist ((List.filter_sublist _).map Prod.snd) h
      · simp [allocStep, h1] at hs

theorem allocRun_snd_nodup : ∀ (evs : List AllocEv) (st st' : AllocSt),
    (st.live.map Prod.snd).Nodup → allocRun st evs = some st' →
    (st'.live.map Prod.snd).Nodup := by
  intro evs
  induction evs with
  | nil =>
      intro st st' h hr
      cases hr
      exact h
  | cons e evs ih =>
      intro st st' h hr
      unfold allocRun at hr
      cases hs : allocStep st e with
      | none => rw [hs] at hr; cases hr
      | some st1 =>
          rw [hs] at hr
          exact ih st1 st' (allocStep_snd_nodup h hs) hr

/-- C6 amended: request ids are unique among *simultaneously live*
requests — in every valid execution of the id model, two live requests
with distinct identities have distinct ids — but there is no monotonicity
and no guarantee against reuse after a request object is reclaimed. -/
theorem c6_live_ids_distinct (evs : List AllocEv) (st : AllocSt)
    (hr : allocRun ⟨[], []⟩ evs = some st) :
    ∀ p ∈ st.live, ∀ q ∈ st.live, p.1 ≠ q.1 → p.2 ≠ q.2 := by
  intro p hp q hq hne heq
  have hnd : (st.live.map Prod.snd).Nodup :=
    allocRun_snd_nodup evs ⟨[], []⟩ st (by simp) hr
  exact hne (congrArg Prod.fst (List.inj_on_of_nodup_map hnd hp hq heq))

/-- Witness for the amended C6: two simultaneously live requests carry
distinct ids 5 and 6. -/
theorem c6_witness :
    allocRun ⟨[], []⟩ [.create 0 5, .create 1 6]
      = some ⟨[(0, 5), (1, 6)], [(0, 5), (1, 6)]⟩ ∧
    ((0, 5) : Nat × Int).snd ≠ ((1, 6) : Nat × Int).snd :=
  ⟨rfl, c6_live_ids_distinct [.create 0 5, .create 1 6]
    ⟨[(0, 5), (1, 6)], [(0, 5), (1, 6)]⟩ rfl
    (0, 5) (by simp) (1, 6) (by simp) (by simp)⟩

/-! ### Resolution accounting for the interleaving semantics -/

theorem notesFor_eq_nil (notes : List (Int × Notified)) (n : Int)
    (h : ∀ p ∈ notes, p.1 ≠ n) : notesFor notes n = [] := by
  induction notes with
  | nil => rfl
  | cons p l ih =>
      obtain ⟨m, r⟩ := p
      have hm : m ≠ n := h (m, r) (by simp)
      show (if m = n then r :: notesFor l n else notesFor l n) = []
      rw [if_neg hm]
      exact ih fun q hq => h q (List.mem_cons_of_mem _ hq)

theorem countResp_append (a b : List (Int × Notified)) (n : Int) :
    countResp (a ++ b) n = countResp a n + countResp b n := by
  unfold countResp
  rw [notesFor_append, List.filter_append, List.length_append]

theorem countResp_cons (m : Int) (r : Notified) (l : List (Int × Notified))
    (n : Int) :
    countResp ((m, r) :: l) n
      = (if m = n ∧ isResp r = true then 1 else 0) + countResp l n := by
  unfold countResp
  by_cases hm : m = n <;> by_cases hr : isResp r = true <;>
    simp [notesFor, hm, hr, List.filter_cons] <;> omega

theorem countResp_single (m n : Int) (c : Notified) :
    countResp [(m, c)] n = if m = n ∧ isResp c = true then 1 else 0 := by
  rw [countResp_cons]
  show _ + countResp [] n = _
  simp [countResp, notesFor]

theorem countResp_all_disc (l : List (Int × Notified)) (n : Int)
    (h : ∀ p ∈ l, isDisc p.2 = true) : countResp l n = 0 := by
  induction l with
  | nil => rfl
  | cons p l ih =>
      obtain ⟨m, r⟩ := p
      have hr : isDisc r = true := h (m, r) (by simp)
      rw [countResp_cons]
      have : ¬(m = n ∧ isResp r = true) := by
        intro hcon
        rw [isResp, hr] at hcon
        exact absurd hcon.2 (by simp)
      rw [if_neg this, ih fun q hq => h q (List.mem_cons_of_mem _ hq)]

theorem countResp_zero_of_keys (notes : List (Int × Notified)) (n : Int)
    (h : ∀ p ∈ notes, p.1 ≠ n) : countResp notes n = 0 := by
  unfold countResp
  rw [notesFor_eq_nil notes n h]
  rfl

/-- Exhaustive characterization of `process_command`: either it pops and
resolves a request — necessarily one that is pending, keyed exactly by the
id carried in the message, with a non-disconnection-class value — or it
leaves the pending registry untouched and resolves nothing. -/
theorem process_command_cases (methods : List String) (pending : List Int)
    (cmd : JObj) :
    (∃ n r, process_command methods pending cmd = (pending.erase n, .resolved n r) ∧
        n ∈ pending ∧ getPy cmd "id" = some (.num n) ∧ isDisc r = false) ∨
    ((process_command methods pending cmd).1 = pending ∧
      ∀ n r, (process_command methods pending cmd).2 ≠ PCOut.resolved n r) := by
  cases hm : getPy cmd "method" with
  | some m =>
      cases m with
      | null => right; simp [process_command, hm]
      | bool b => right; simp [process_command, hm]
      | num k => right; simp [process_command, hm]
      | str s =>
          by_cases hsm : s ∈ methods
          · right; simp [process_command, hm, hsm]
          · right; simp [process_command, hm, hsm]
      | arr el => right; simp [process_command, hm]
      | obj fl => right; simp [process_command, hm]
  | none =>
      cases hid : getPy cmd "id" with
      | none => right; simp [process_command, hm, hid]
      | some j =>
          cases j with
          | num k =>
              by_cases hk : k ∈ pending
              · left
                refine ⟨k, (match jget cmd "result" with
                    | some v => Notified.val (if jfalsy v then .str "ok" else v)
                    | none => Notified.serr (match jget cmd "error" with
                        | some e => e
                        | none => .str "Malformed Klippy Response") 400),
                  ?_, hk, rfl, ?_⟩
                · simp [process_command, hm, hid, hk]
                · cases hr : jget cmd "result" with
                  | some v => simp only [hr]; rfl
                  | none => simp only [hr]; rfl
              · right; simp [process_command, hm, hid, hk]
          | null => right; simp [process_command, hm, hid]
          | bool b => right; simp [process_command, hm, hid]
          | str s => right; simp [process_command, hm, hid]
          | arr el => right; simp [process_command, hm, hid]
          | obj fl => right; simp [process_command, hm, hid]

/-- Invariant of the interleaving semantics: the pending registry holds
distinct ids drawn from the issued ids, every notification ever logged is
for an issued id, a request still pending has received no response-type
resolution, and no request ever receives more than one response-type
resolution. -/
def MInv (ms : MState) : Prop :=
  ms.g.pending.Nodup ∧
  (∀ n ∈ ms.g.pending, n ∈ ms.used) ∧
  (∀ n ∈ ms.inflight, n ∈ ms.used) ∧
  (∀ p ∈ ms.g.notes, p.1 ∈ ms.used) ∧
  (∀ n ∈ ms.g.pending, countResp ms.g.notes n = 0) ∧
  (∀ n : Int, countResp ms.g.notes n ≤ 1)

theorem inv_step {ms ms' : MState} {e : Ev} (h : MInv ms)
    (hs : step ms e = some ms') : MInv ms' := by
  obtain ⟨h1, h2, h3, h4, h5, h6⟩ := h
  cases e with
  | issue n m objs =>
      by_cases hn : n ∈ ms.used
      · simp [step, hn] at hs
      · simp only [step] at hs
        rw [if_neg hn] at hs
        injection hs with hs
        subst hs
        refine ⟨?_, ?_, ?_, ?_, ?_, h6⟩
        · have hnp : n ∉ ms.g.pending := fun hmem => hn (h2 n hmem)
          simp [List.nodup_append, h1, hnp]
        · intro k hk
          rcases List.mem_append.mp hk with hk | hk
          · exact List.mem_append_left _ (h2 k hk)
          · simp only [List.mem_singleton] at hk
            subst hk
            exact List.mem_append_right _ (by simp)
        · intro k hk
          rcases List.mem_append.mp hk with hk | hk
          · exact List.mem_append_left _ (h3 k hk)
          · simp only [List.mem_singleton] at hk
            subst hk
            exact List.mem_append_right _ (by simp)
        · intro p hp
          exact List.mem_append_left _ (h4 p hp)
        · intro k hk
          rcases List.mem_append.mp hk with hk | hk
          · exact h5 k hk
          · simp only [List.mem_singleton] at hk
            subst hk
            exact countResp_zero_of_keys _ _
              fun p hp hpn => hn (hpn ▸ h4 p hp)
  | sendOk n =>
      by_cases hi : n ∈ ms.inflight
      · by_cases hc : ms.connected
        · simp only [step] at hs
          rw [if_pos hi, if_pos hc] at hs
          injection hs with hs
          subst hs
          refine ⟨h1, h2, ?_, h4, h5, h6⟩
          intro k hk
          exact h3 k (List.mem_of_mem_erase hk)
        · simp [step, hi, hc] at hs
      · simp [step, hi] at hs
  | sendFail n =>
      by_cases hi : n ∈ ms.inflight
      · simp only [step] at hs
        rw [if_pos hi] at hs
        injection hs with hs
        subst hs
        refine ⟨h1, h2, ?_, ?_, ?_, ?_⟩
        · intro k hk
          exact h3 k (List.mem_of_mem_erase hk)
        · intro p hp
          rcases List.mem_append.mp hp with hp | hp
          · exact h4 p hp
          · simp only [List.mem_singleton] at hp
            subst hp
            exact h3 n hi
        · intro k hk
          rw [countResp_append, countResp_single]
          have : ¬(n = k ∧ isResp hostNotConnected = true) := by
            intro hcon
            exact absurd hcon.2 (by simp [isResp, hostNotConnected, isDisc])
          rw [if_neg this, h5 k hk]
        · intro k
          rw [countResp_append, countResp_single]
          have : ¬(n = k ∧ isResp hostNotConnected = true) := by
            intro hcon
            exact absurd hcon.2 (by simp [isResp, hostNotConnected, isDisc])
          rw [if_neg this]
          simpa using h6 k
      · simp only [step] at hs
        rw [if_neg hi] at hs
        exact Option.noConfusion hs
  | deliver cmd =>
      by_cases hc : ms.connected
      · simp only [step] at hs
        rw [if_pos hc] at hs
        injection hs with hs
        subst hs
        rcases process_command_cases builtinMethods ms.g.pending cmd with
          ⟨k, r, hpc, hk, hid, hdisc⟩ | ⟨hfst, hnores⟩
        · simp only [hpc]
          refine ⟨h1.erase k, ?_, h3, ?_, ?_, ?_⟩
          · intro nn hnn
            exact h2 nn (List.mem_of_mem_erase hnn)
          · intro p hp
            rcases List.mem_append.mp hp with hp | hp
            · exact h4 p hp
            · simp only [List.mem_singleton] at hp
              subst hp
              exact h2 k hk
          · intro nn hnn
            have hne := (List.Nodup.mem_erase_iff h1).mp hnn
            rw [countResp_append, countResp_single,
              if_neg (fun hcon => hne.1 hcon.1.symm), h5 nn hne.2]
          · intro nn
            rw [countResp_append, countResp_single]
            by_cases hkn : k = nn
            · subst hkn
              rw [h5 k hk]
              split <;> omega
            · have : ¬(k = nn ∧ isResp r = true) := fun hcon => hkn hcon.1
              rw [if_neg this]
              simpa using h6 nn
        · have hmatch : (match (process_command builtinMethods ms.g.pending cmd).2 with
              | PCOut.resolved nn rr => [(nn, rr)]
              | _ => ([] : List (Int × Notified))) = [] := by
            cases hout : (process_command builtinMethods ms.g.pending cmd).2 with
            | resolved nn rr => exact absurd hout (hnores nn rr)
            | dispatched a b => rfl
            | unknownMethod a => rfl
            | unmatched a => rfl
          simp only [hfst, hmatch, List.append_nil]
          exact ⟨h1, h2, h3, h4, h5, h6⟩
      · simp [step, hc] at hs
  | disconnect =>
      by_cases hc : ms.connected
      · simp only [step] at hs
        rw [if_pos hc] at hs
        injection hs with hs
        subst hs
        have hdiscmap : ∀ q ∈ ms.g.pending.map
            (fun mm => (mm, klippyDisconnected)), isDisc q.2 = true := by
          intro q hq
          obtain ⟨kk, hkk, rfl⟩ := List.mem_map.mp hq
          rfl
        refine ⟨List.nodup_nil, ?_, h3, ?_, ?_, ?_⟩
        · intro nn hnn
          simp [on_connection_closed] at hnn
        · intro p hp
          simp only [on_connection_closed] at hp
          rcases List.mem_append.mp hp with hp | hp
          · exact h4 p hp
          · obtain ⟨kk, hkk, rfl⟩ := List.mem_map.mp hp
            exact h2 kk hkk
        · intro nn hnn
          simp [on_connection_closed] at hnn
        · intro nn
          show countResp (ms.g.notes ++ ms.g.pending.map
            (fun mm => (mm, klippyDisconnected))) nn ≤ 1
          rw [countResp_append, countResp_all_disc _ _ hdiscmap]
          simpa using h6 nn
      · simp [step, hc] at hs
  | reconnect =>
      by_cases hc : ms.connected
      · simp [step, hc] at hs
      · simp only [step] at hs
        rw [if_neg hc] at hs
        injection hs with hs
        subst hs
        exact ⟨h1, h2, h3, h4, h5, h6⟩

theorem inv_run : ∀ (evs : List Ev) (ms ms' : MState),
    MInv ms → run ms evs = some ms' → MInv ms' := by
  intro evs
  induction evs with
  | nil =>
      intro ms ms' h hr
      cases hr
      exact h
  | cons e evs ih =>
      intro ms ms' h hr
      unfold run at hr
      cases hst : step ms e with
      | none => rw [hst] at hr; cases hr
      | some ms1 =>
          rw [hst] at hr
          exact ih ms1 ms' (inv_step h hst) hr

theorem inv_init : MInv initState := by
  refine ⟨List.nodup_nil, ?_, ?_, ?_, ?_, ?_⟩
  · intro n hn; simp [initState] at hn
  · intro n hn; simp [initState] at hn
  · intro p hp; simp [initState] at hp
  · intro n hn; simp [initState] at hn
  · intro n; show countResp [] n ≤ 1; simp [countResp, notesFor]

/-- C3 is false as stated: a request issued while the backend is down is
notified with the 503 error by the failed `send_request` but stays in
`pending_requests`, so the next connection closure notifies it again — one
request, two resolutions.  The trace: issue request 1 while disconnected,
its send fails, the backend connects, then disconnects. -/
theorem c3_counterexample :
    run initState [.issue 1 "status" [], .sendFail 1, .reconnect, .disconnect]
      = some ⟨⟨[], "disconnected", [], [],
          [(1, hostNotConnected), (1, klippyDisconnected)]⟩, [], false, [1]⟩ ∧
    notifCount [(1, hostNotConnected), (1, klippyDisconnected)] 1 = 2 := by
  exact ⟨rfl, rfl⟩

/-- C3 amended: across every interleaving, each request receives at most
one response-type resolution; a resolution produced by `process_command`
always belongs to the pending request whose key equals the id carried in
that very response (never another request's); and every resolution a
connection closure adds is the 503 "Klippy Disconnected" error.  Requests
can, however, be notified more than once in total: a failed send and a
later closure both deliver disconnection-class errors to the same request. -/
theorem c3_resolution_discipline :
    (∀ (evs : List Ev) (s : MState), run initState evs = some s →
      ∀ n : Int, countResp s.g.notes n ≤ 1) ∧
    (∀ (methods : List String) (pending : List Int) (cmd : JObj)
        (p' : List Int) (n : Int) (r : Notified),
      process_command methods pending cmd = (p', PCOut.resolved n r) →
      getPy cmd "id" = some (.num n) ∧ n ∈ pending ∧
        p' = pending.erase n ∧ isDisc r = false) ∧
    (∀ (s : GState) (q : Int × Notified),
      q ∈ (on_connection_closed s).notes.drop s.notes.length →
      q.2 = klippyDisconnected) := by
  refine ⟨?_, ?_, ?_⟩
  · intro evs s hr n
    exact (inv_run evs initState s inv_init hr).2.2.2.2.2 n
  · intro methods pending cmd p' n r h
    rcases process_command_cases methods pending cmd with
      ⟨k, rr, hpc, hk, hid, hdisc⟩ | ⟨hfst, hnores⟩
    · rw [h] at hpc
      injection hpc with hp1 hp2
      injection hp2 with hn hr2
      subst hn
      subst hr2
      exact ⟨hid, hk, hp1, hdisc⟩
    · exact absurd (congrArg Prod.snd h) (hnores n r)
  · intro s q hq
    have hdrop : (on_connection_closed s).notes.drop s.notes.length
        = s.pending.map (fun m => (m, klippyDisconnected)) := by
      show (s.notes ++ _).drop s.notes.length = _
      rw [List.drop_left]
    rw [hdrop] at hq
    obtain ⟨k, hk, rfl⟩ := List.mem_map.mp hq
    rfl

/-- Witness for the amended C3 at a concrete trace and request id. -/
theorem c3_witness :
    countResp initState.g.notes 0 ≤ 1 :=
  c3_resolution_discipline.1 [] initState rfl 0
